import Mathlib

/-!
Shallow embedding of the AberLED bicolor-matrix driver (AberLED.cpp/.h):
a double-buffered 8x8 frame store (two arrays of eight 16-bit row words
addressed through back/front pointers), a periodic timer ISR that refreshes
one matrix row and debounces one of five button channels per invocation, a
blocking buffer-exchange operation (`swap`), button-state snapshots, a tick
counter, and the TFT text-overlay buffer.

Machine integers are modeled as `Nat`/`Int` with explicit `% 2^w` at the
points where the C code truncates (the `uint16_t` row-word stores, the
`byte` debounce counters, the `unsigned char` colour argument).  External
I/O (port writes, pin reads, TFT drawing) has no effect on the modeled
state; the raw pin level sampled by the ISR is the ISR step's input.
-/

namespace AberLED

/-- The two statically-allocated frame buffers `bufferA` and `bufferB`;
the C `backBuffer`/`frontBuffer` pointers can only ever hold the address
of one of these. -/
inductive BufId where
  | A : BufId
  | B : BufId
deriving DecidableEq

/-- The global mutable state of AberLED.cpp: the two row-word arrays, the
back/front pointer values, the five-channel button arrays, tick counters,
interrupt flag, display-mode flag, the text buffers, and the statics of
the ISR (`trueButtonStates`, `button`) and of the refresh driver
(`refrow`). -/
structure LEDState where
  bufferA : Fin 8 → Nat
  bufferB : Fin 8 → Nat
  backBuffer : BufId
  frontBuffer : BufId
  buttonStates : Fin 5 → Nat
  debouncedButtonStates : Fin 5 → Nat
  buttonDebounceCounters : Fin 5 → Nat
  buttonWentDown : Fin 5 → Nat
  buttonWentDownInLastLoop : Fin 5 → Nat
  trueButtonStates : Fin 5 → Bool
  button : Fin 5
  refrow : Fin 8
  ticks : Int
  interruptTicks : Int
  interruptRunning : Bool
  isTFT : Bool
  txtBuffer : List Char
  prevTxtBuffer : List Char

/-- Read the rows of a given buffer. -/
def bufRows (st : LEDState) : BufId → (Fin 8 → Nat)
  | .A => st.bufferA
  | .B => st.bufferB

/-- Store a row word into a given buffer. -/
def writeRow (st : LEDState) (id : BufId) (r : Fin 8) (v : Nat) : LEDState :=
  match id with
  | .A => { st with bufferA := fun j => if j = r then v else st.bufferA j }
  | .B => { st with bufferB := fun j => if j = r then v else st.bufferB j }

/-- `AberLEDClass::getBuffer`: returns the back (writable) buffer. -/
def getBuffer (st : LEDState) : Fin 8 → Nat := bufRows st st.backBuffer

/-- The row-word update performed by `AberLEDClass::set` once in range:
`*p &= ~(3 << x); *p |= col << x;` with `*p` a `uint16_t` (stores truncate
to 16 bits) and `x` already doubled (`k = 2*x`). -/
def setWord (row k col : Nat) : Nat :=
  ((row &&& (((3 <<< k) % 65536) ^^^ 65535)) ||| (col <<< k)) % 65536

/-- Read back the 2-bit pixel field at bit pair `x` of a row word. -/
def pixGet (row x : Nat) : Nat := (row >>> (2 * x)) &&& 3

/-- `AberLEDClass::set(int x, int y, unsigned char col)`: writes one pixel
of the back buffer when `x < 8 && y < 8 && x >= 0 && y >= 0`, else is a
no-op.  The colour argument passes through `unsigned char` (`% 256`). -/
def set (st : LEDState) (x y : Int) (col : Nat) : LEDState :=
  if h : x < 8 ∧ y < 8 ∧ 0 ≤ x ∧ 0 ≤ y then
    writeRow st st.backBuffer ⟨y.toNat, by omega⟩
      (setWord (getBuffer st ⟨y.toNat, by omega⟩) (x.toNat * 2) (col % 256))
  else st

/-- `AberLEDClass::clear`: zeroes all 16 bytes (8 row words) of the back
buffer. -/
def clear (st : LEDState) : LEDState :=
  match st.backBuffer with
  | .A => { st with bufferA := fun _ => 0 }
  | .B => { st with bufferB := fun _ => 0 }

/-- `AberLEDClass::getButton(unsigned char c)`: reads `buttonStates[c-1]`
with no bounds check; the total embedding returns `none` when the index
`c - 1` (computed in `int`) is outside the 5-element array. -/
def getButton (st : LEDState) (c : Nat) : Option Nat :=
  if h : 0 ≤ (c : Int) - 1 ∧ (c : Int) - 1 < 5 then
    some (st.buttonStates ⟨((c : Int) - 1).toNat, by omega⟩)
  else none

/-- `AberLEDClass::getButtonDown(unsigned char c)`: reads
`buttonWentDownInLastLoop[c-1]` with no bounds check. -/
def getButtonDown (st : LEDState) (c : Nat) : Option Nat :=
  if h : 0 ≤ (c : Int) - 1 ∧ (c : Int) - 1 < 5 then
    some (st.buttonWentDownInLastLoop ⟨((c : Int) - 1).toNat, by omega⟩)
  else none

/-- `AberLEDClass::getTicks`: returns the `ticks` variable. -/
def getTicks (st : LEDState) : Int := st.ticks

/-- The critical section of `AberLEDClass::swap` (between `cli()` and
`sei()`): snapshot the went-down flags and clear them, snapshot the
debounced states, snapshot and reset the tick counter, exchange the
back/front pointers, and (TFT only) render the text if it changed
(`renderText` copies `txtBuffer` into `prevTxtBuffer` iff they differ).
The busy-wait that follows `sei()` is modeled separately by `canReturn`. -/
def swap (st : LEDState) : LEDState :=
  { st with
    buttonWentDownInLastLoop := st.buttonWentDown
    buttonWentDown := fun _ => 0
    buttonStates := st.debouncedButtonStates
    ticks := st.interruptTicks
    interruptTicks := 0
    frontBuffer := st.backBuffer
    backBuffer := st.frontBuffer
    prevTxtBuffer :=
      if st.isTFT = true ∧ st.txtBuffer ≠ st.prevTxtBuffer then st.txtBuffer
      else st.prevTxtBuffer }

/-- The exit condition of the busy-wait at the end of `AberLEDClass::swap`:
`if (interruptRunning) { while (interruptTicks < 2) {} }`.  `swap` may
return in wait-state `stW` only when this holds. -/
def canReturn (st stW : LEDState) : Prop :=
  st.interruptRunning = true → 2 ≤ stW.interruptTicks

/-- `AberLEDClass::clearText`: clears the pending text buffer, but only on
a TFT device. -/
def clearText (st : LEDState) : LEDState :=
  if st.isTFT then { st with txtBuffer := [] } else st

/-- `AberLEDClass::addToText(const char *s)`: on a TFT device, appends `s`
to the pending text buffer when
`strlen(txtBuffer) + strlen(s) + 1 < MAXTEXTLEN` (with `MAXTEXTLEN = 32`),
else does nothing; on a non-TFT device does nothing. -/
def addToText (st : LEDState) (s : List Char) : LEDState :=
  if st.isTFT then
    if st.txtBuffer.length + s.length + 1 < 32 then
      { st with txtBuffer := st.txtBuffer ++ s }
    else st
  else st

/-- The per-channel debounce fields manipulated by the ISR: the
previous-true-state, the debounce counter (a `byte`), the committed
debounced state and the went-down latch (both `byte` 0/1). -/
structure ChanState where
  trueState : Bool
  cnt : Nat
  deb : Nat
  wd : Nat
deriving DecidableEq

/-- The button-debounce section of `ISR(TIMER1_COMPA_vect)` for the
channel being sampled, with `bstate` the normalized (active-high) sample:
on disagreement with the previous true state, reset the counter and latch
the went-down flag if the sample is active; on agreement, increment the
`byte` counter and, when it reaches 4, reset it and commit the sample;
finally store the sample as the previous true state. -/
def debounceChan (c : ChanState) (bstate : Bool) : ChanState :=
  if bstate ≠ c.trueState then
    { trueState := bstate, cnt := 0, deb := c.deb
      wd := if bstate then 1 else c.wd }
  else if (c.cnt + 1) % 256 == 4 then
    { trueState := bstate, cnt := 0
      deb := if bstate then 1 else 0, wd := c.wd }
  else
    { trueState := bstate, cnt := (c.cnt + 1) % 256, deb := c.deb, wd := c.wd }

/-- Collect the debounce fields of channel `b` out of the global state. -/
def chanOf (st : LEDState) (b : Fin 5) : ChanState :=
  ⟨st.trueButtonStates b, st.buttonDebounceCounters b,
   st.debouncedButtonStates b, st.buttonWentDown b⟩

/-- One invocation of `ISR(TIMER1_COMPA_vect)`: increment `interruptTicks`,
run `refreshNextRow` (which reads the front buffer, drives the display
hardware, and advances `refrow` modulo 8), then sample the current
channel's pin (`pinHigh` is the raw level; `bstate = bstate ? 0 : 1`
inverts it), run the debounce logic on that channel, and advance the
round-robin channel index modulo 5. -/
def isrTick (st : LEDState) (pinHigh : Bool) : LEDState :=
  let b := st.button
  let bstate := !pinHigh
  let c := debounceChan (chanOf st b) bstate
  { st with
    interruptTicks := st.interruptTicks + 1
    refrow := ⟨(st.refrow.val + 1) % 8, by omega⟩
    trueButtonStates := fun j => if j = b then c.trueState else st.trueButtonStates j
    buttonDebounceCounters := fun j => if j = b then c.cnt else st.buttonDebounceCounters j
    debouncedButtonStates := fun j => if j = b then c.deb else st.debouncedButtonStates j
    buttonWentDown := fun j => if j = b then c.wd else st.buttonWentDown j
    button := ⟨(b.val + 1) % 5, by omega⟩ }

/-- `k` consecutive samplings of one channel with the constant raw sample
value `v` (iterated `debounceChan`). -/
def sampleRun (c : ChanState) (v : Bool) : Nat → ChanState
  | 0 => c
  | k + 1 => debounceChan (sampleRun c v k) v

/-- The state after `AberLEDClass::begin(flags)`: back pointer at
`bufferA`, front at `bufferB`, both buffers and all button arrays zeroed,
text buffers empty, interrupt running unless `AF_NOINTERRUPT` was given,
and the ISR/refresh statics at their C initial values. -/
def initState (tft noInt : Bool) : LEDState where
  bufferA := fun _ => 0
  bufferB := fun _ => 0
  backBuffer := .A
  frontBuffer := .B
  buttonStates := fun _ => 0
  debouncedButtonStates := fun _ => 0
  buttonDebounceCounters := fun _ => 0
  buttonWentDown := fun _ => 0
  buttonWentDownInLastLoop := fun _ => 0
  trueButtonStates := fun _ => false
  button := 0
  refrow := 0
  ticks := 0
  interruptTicks := 0
  interruptRunning := !noInt
  isTFT := tft
  txtBuffer := []
  prevTxtBuffer := []

/-- An application-side frame-store operation: a `set` call or a `clear`
call. -/
inductive AppOp where
  | px (x y : Int) (col : Nat) : AppOp
  | wipe : AppOp

/-- Apply one application-side operation. -/
def applyOp (st : LEDState) : AppOp → LEDState
  | .px x y col => set st x y col
  | .wipe => clear st

/-- Apply a sequence of application-side operations. -/
def applyOps (st : LEDState) (ops : List AppOp) : LEDState :=
  ops.foldl applyOp st

/-- One step of the whole system: an application frame-store operation, a
buffer exchange, an ISR invocation (with the sampled raw pin level as
input), or a text-overlay call. -/
inductive Step : LEDState → LEDState → Prop where
  | app {st : LEDState} (op : AppOp) : Step st (applyOp st op)
  | doSwap {st : LEDState} : Step st (swap st)
  | tick {st : LEDState} (p : Bool) : Step st (isrTick st p)
  | txtClear {st : LEDState} : Step st (clearText st)
  | txtAdd {st : LEDState} (s : List Char) : Step st (addToText st s)

/-- States reachable from `begin(flags)` by any interleaving of steps. -/
def Reachable (tft noInt : Bool) (st : LEDState) : Prop :=
  Relation.ReflTransGen Step (initState tft noInt) st

end AberLED

open AberLED

/-! ### Helper lemmas about the debounce engine -/

/-- When the sample agrees with the previous true state, `debounceChan`
increments the counter, committing at 4. -/
theorem debounceChan_agree (c : ChanState) (v : Bool) (hc : c.trueState = v) :
    debounceChan c v =
      if (c.cnt + 1) % 256 = 4 then
        { trueState := v, cnt := 0, deb := if v then 1 else 0, wd := c.wd }
      else { trueState := v, cnt := (c.cnt + 1) % 256, deb := c.deb, wd := c.wd } := by
  unfold debounceChan
  rw [hc]
  simp [beq_iff_eq]

/-- When the sample disagrees with the previous true state, `debounceChan`
resets the counter and latches the went-down flag on an active sample. -/
theorem debounceChan_disagree (c : ChanState) (v : Bool) (hc : c.trueState ≠ v) :
    debounceChan c v =
      { trueState := v, cnt := 0, deb := c.deb, wd := if v then 1 else c.wd } := by
  unfold debounceChan
  rw [if_pos (Ne.symm hc)]

/-- C4: Debounce stability — starting from a settled channel (previous
true state and committed state both equal to `old`), a raw sample that
flips to `new` and then holds commits the new value exactly at the 4th
consistent re-sample: after the flip plus `k` re-samples the committed
state is still `old` for `k < 4` and is `new` for all `k ≥ 4` (so it
changes exactly once and never again while the sample holds), and the
debounce counter cycles `k % 4`, reset to 0 on the disagreement and on
each commit at the threshold 4. -/
theorem C4_debounce_stability (old new : Bool) (c0 : ChanState)
    (hprev : c0.trueState = old) (hdeb : c0.deb = if old then 1 else 0)
    (hne : new ≠ old) :
    ∀ k : Nat,
      (sampleRun (debounceChan c0 new) new k).deb
          = (if 4 ≤ k then (if new then 1 else 0) else (if old then 1 else 0)) ∧
      (sampleRun (debounceChan c0 new) new k).cnt = k % 4 ∧
      (sampleRun (debounceChan c0 new) new k).trueState = new := by
  intro k
  induction k with
  | zero =>
      rw [sampleRun, debounceChan_disagree c0 new (by rw [hprev]; exact fun h => hne h.symm)]
      simp [hdeb]
  | succ k ih =>
      obtain ⟨ih1, ih2, ih3⟩ := ih
      have hstep : sampleRun (debounceChan c0 new) new (k + 1)
          = debounceChan (sampleRun (debounceChan c0 new) new k) new := rfl
      rw [hstep, debounceChan_agree _ new ih3, ih2]
      have h256 : (k % 4 + 1) % 256 = k % 4 + 1 := Nat.mod_eq_of_lt (by omega)
      rw [h256]
      by_cases h3 : k % 4 + 1 = 4
      · rw [if_pos h3]
        refine ⟨?_, ?_, rfl⟩
        · show (if new = true then 1 else 0) = _
          rw [if_pos (show 4 ≤ k + 1 by omega)]
        · show 0 = (k + 1) % 4
          omega
      · rw [if_neg h3]
        refine ⟨?_, ?_, rfl⟩
        · show (sampleRun (debounceChan c0 new) new k).deb = _
          rw [ih1]
          by_cases h4 : 4 ≤ k
          · rw [if_pos h4, if_pos (show 4 ≤ k + 1 by omega)]
          · rw [if_neg h4, if_neg (show ¬ 4 ≤ k + 1 by omega)]
        · show k % 4 + 1 = (k + 1) % 4
          omega

/-- Witness for C4: from a settled inactive channel, a sample that flips
to active and holds is committed at the 4th re-sample and still committed
at the 7th; at the 3rd it is not yet committed. -/
theorem C4_debounce_stability_witness :
    (sampleRun (debounceChan ⟨false, 0, 0, 0⟩ true) true 3).deb = 0 ∧
    (sampleRun (debounceChan ⟨false, 0, 0, 0⟩ true) true 4).deb = 1 ∧
    (sampleRun (debounceChan ⟨false, 0, 0, 0⟩ true) true 7).deb = 1 := by
  have h := C4_debounce_stability false true ⟨false, 0, 0, 0⟩ rfl (by decide)
    (by decide)
  exact ⟨by simpa using (h 3).1, by simpa using (h 4).1, by simpa using (h 7).1⟩

/-! ### C6: coordinate safety -/

/-- C6: Coordinate safety — for every `x`, `y` with `x` outside `[0,8)` or
`y` outside `[0,8)` and every colour value, `set(x,y,col)` leaves the
writable buffer (all 8 row words) bitwise identical: it is a silent no-op
on the whole state. -/
theorem C6_coordinate_safety (st : LEDState) (x y : Int) (col : Nat)
    (h : ¬(0 ≤ x ∧ x < 8) ∨ ¬(0 ≤ y ∧ y < 8)) :
    AberLED.set st x y col = st ∧
    ∀ r : Fin 8, getBuffer (AberLED.set st x y col) r = getBuffer st r := by
  have hs : AberLED.set st x y col = st := by
    unfold AberLED.set
    rw [dif_neg (by omega)]
  exact ⟨hs, fun r => by rw [hs]⟩

/-- Witness for C6: `set(8, 0, 3)` and `set(0, -1, 2)` leave the state
unchanged. -/
theorem C6_coordinate_safety_witness :
    AberLED.set (initState true false) 8 0 3 = initState true false ∧
    AberLED.set (initState true false) 0 (-1) 2 = initState true false :=
  ⟨(C6_coordinate_safety (initState true false) 8 0 3 (Or.inl (by decide))).1,
   (C6_coordinate_safety (initState true false) 0 (-1) 2 (Or.inr (by decide))).1⟩

/-! ### C8: text overlay -/

/-- C8 as stated is too permissive at the boundary: with a 30-character
pending text, a 1-character addition needs 30 + 1 + 1 = 32 bytes, which
fits the 32-byte capacity exactly, yet the code's strict test
`strlen(txtBuffer) + strlen(s) + 1 < 32` drops the addition. -/
theorem C8_counterexample :
    (addToText (initState true false) (List.replicate 30 'a')).txtBuffer.length
        + 1 + 1 ≤ 32 ∧
    (addToText (addToText (initState true false) (List.replicate 30 'a'))
        ['b']).txtBuffer
      = (addToText (initState true false) (List.replicate 30 'a')).txtBuffer ∧
    (addToText (addToText (initState true false) (List.replicate 30 'a'))
        ['b']).txtBuffer
      ≠ (addToText (initState true false) (List.replicate 30 'a')).txtBuffer
          ++ ['b'] := by
  decide

/-- C8 (amended): `clearText()` and `addToText()` are total no-ops when
the TFT device is not active; when it is active, `addToText(s)` appends
`s` exactly when the existing length plus the length of `s` plus the
terminator is strictly below the 32-byte capacity (one byte is never
used), and otherwise leaves the state entirely unchanged — never a
partial truncation; `clearText()` empties the pending buffer. -/
theorem C8_text_overlay (st : LEDState) (s : List Char) :
    (st.isTFT = false → clearText st = st ∧ addToText st s = st) ∧
    (st.isTFT = true →
       (clearText st).txtBuffer = [] ∧
       (st.txtBuffer.length + s.length + 1 < 32 →
          (addToText st s).txtBuffer = st.txtBuffer ++ s) ∧
       (¬ st.txtBuffer.length + s.length + 1 < 32 → addToText st s = st)) := by
  constructor
  · intro h
    constructor
    · unfold clearText; rw [if_neg (by simp [h])]
    · unfold addToText; rw [if_neg (by simp [h])]
  · intro h
    refine ⟨by unfold clearText; rw [if_pos (by simp [h])], ?_, ?_⟩
    · intro hlen
      unfold addToText
      rw [if_pos (by simp [h]), if_pos hlen]
    · intro hlen
      unfold addToText
      rw [if_pos (by simp [h]), if_neg hlen]

/-- Witness for C8 (amended): on a TFT state, a short addition is
appended; on a non-TFT state, both calls are no-ops. -/
theorem C8_text_overlay_witness :
    (addToText (initState true false) ['h', 'i']).txtBuffer = [] ++ ['h', 'i'] ∧
    clearText (initState false false) = initState false false ∧
    addToText (initState false false) ['h', 'i'] = initState false false := by
  have h1 := (C8_text_overlay (initState true false) ['h', 'i']).2 rfl
  have h2 := (C8_text_overlay (initState false false) ['h', 'i']).1 rfl
  exact ⟨h1.2.1 (by decide), h2.1, h2.2⟩

/-! ### Preservation lemmas for sequences of ISR invocations -/

/-- ISR invocations never touch the application-visible `ticks`
snapshot. -/
theorem foldl_isrTick_ticks (L : List Bool) (s : LEDState) :
    (List.foldl isrTick s L).ticks = s.ticks := by
  induction L generalizing s with
  | nil => rfl
  | cons p L ih => exact ih (isrTick s p)

/-- ISR invocations never touch the application-visible button-state
snapshot. -/
theorem foldl_isrTick_buttonStates (L : List Bool) (s : LEDState) :
    (List.foldl isrTick s L).buttonStates = s.buttonStates := by
  induction L generalizing s with
  | nil => rfl
  | cons p L ih => exact ih (isrTick s p)

/-- ISR invocations never touch the application-visible went-down
snapshot. -/
theorem foldl_isrTick_wdil (L : List Bool) (s : LEDState) :
    (List.foldl isrTick s L).buttonWentDownInLastLoop
      = s.buttonWentDownInLastLoop := by
  induction L generalizing s with
  | nil => rfl
  | cons p L ih => exact ih (isrTick s p)

/-- ISR invocations never change the back-buffer pointer. -/
theorem foldl_isrTick_back (L : List Bool) (s : LEDState) :
    (List.foldl isrTick s L).backBuffer = s.backBuffer := by
  induction L generalizing s with
  | nil => rfl
  | cons p L ih => exact ih (isrTick s p)

/-- ISR invocations never change the front-buffer pointer. -/
theorem foldl_isrTick_front (L : List Bool) (s : LEDState) :
    (List.foldl isrTick s L).frontBuffer = s.frontBuffer := by
  induction L generalizing s with
  | nil => rfl
  | cons p L ih => exact ih (isrTick s p)

/-- Each ISR invocation increments the live tick counter by exactly 1. -/
theorem foldl_isrTick_interruptTicks (L : List Bool) (s : LEDState) :
    (List.foldl isrTick s L).interruptTicks
      = s.interruptTicks + L.length := by
  induction L generalizing s with
  | nil => simp
  | cons p L ih =>
      rw [List.foldl_cons, ih (isrTick s p)]
      show s.interruptTicks + 1 + (L.length : Int)
        = s.interruptTicks + ((L.length + 1 : Nat) : Int)
      push_cast
      ring

/-- Each ISR invocation advances the refresh cursor by one row modulo 8. -/
theorem foldl_isrTick_refrow (L : List Bool) (s : LEDState) :
    (List.foldl isrTick s L).refrow.val = (s.refrow.val + L.length) % 8 := by
  induction L generalizing s with
  | nil =>
      show s.refrow.val = (s.refrow.val + 0) % 8
      have := s.refrow.isLt
      omega
  | cons p L ih =>
      rw [List.foldl_cons, ih (isrTick s p)]
      show ((s.refrow.val + 1) % 8 + L.length) % 8
        = (s.refrow.val + (L.length + 1)) % 8
      omega

/-! ### C7: tick diagnostic -/

/-- C7 fails as stated: after an exchange followed by three interrupt
firings, three firings have occurred since the last buffer exchange, but
`getTicks()` still returns the value snapshotted at that exchange (0),
because it reads the snapshot, not the live counter. -/
theorem C7_counterexample :
    getTicks (List.foldl isrTick (swap (initState true false))
        [false, false, false]) = 0 ∧
    (List.foldl isrTick (swap (initState true false))
        [false, false, false]).interruptTicks = 3 ∧
    (0 : Int) ≠ 3 := by
  refine ⟨by decide, by decide, by decide⟩

/-- C7 (amended): `getTicks()` returns the application-visible `ticks`
value, which is the number of interrupt firings in the preceding
exchange-to-exchange interval (not the count since the most recent
exchange): at each exchange the live counter — which counts one per
firing — is snapshotted into the visible value and reset to zero, and
later firings leave the visible value unchanged until the next
exchange. -/
theorem C7_tick_snapshot (st : LEDState) (L M : List Bool) :
    getTicks st = st.ticks ∧
    (swap st).interruptTicks = 0 ∧
    (swap st).ticks = st.interruptTicks ∧
    (List.foldl isrTick (swap st) L).interruptTicks = L.length ∧
    getTicks (swap (List.foldl isrTick (swap st) L)) = L.length ∧
    getTicks (List.foldl isrTick (swap (List.foldl isrTick (swap st) L)) M)
      = L.length := by
  have h1 : (List.foldl isrTick (swap st) L).interruptTicks = L.length := by
    rw [foldl_isrTick_interruptTicks]
    show (0 : Int) + (L.length : Int) = L.length
    ring
  refine ⟨rfl, rfl, rfl, h1, ?_, ?_⟩
  · show (List.foldl isrTick (swap st) L).interruptTicks = (L.length : Int)
    exact h1
  · show (List.foldl isrTick (swap (List.foldl isrTick (swap st) L)) M).ticks
      = (L.length : Int)
    rw [foldl_isrTick_ticks]
    show (List.foldl isrTick (swap st) L).interruptTicks = (L.length : Int)
    exact h1

/-! ### C10: button-query index bounds -/

/-- C10: `getButton(c)` and `getButtonDown(c)` read element `c-1` of a
5-element snapshot array with no bounds check: for `1 ≤ c ≤ 5` the access
is in bounds and returns the value snapshotted at the most recent
`swap()` (unchanged by any later ISR invocations), while for `c = 0` or
`c ≥ 6` the index is outside the array and the total embedding yields
`none` — so `1 ≤ c ≤ 5` is a necessary precondition of both queries. -/
theorem C10_button_index (st : LEDState) (c : Nat) :
    (1 ≤ c ∧ c ≤ 5 →
       ∃ h : c - 1 < 5,
         getButton st c = some (st.buttonStates ⟨c - 1, h⟩) ∧
         getButtonDown st c = some (st.buttonWentDownInLastLoop ⟨c - 1, h⟩) ∧
         ∀ L : List Bool,
           getButton (List.foldl isrTick (swap st) L) c
             = some (st.debouncedButtonStates ⟨c - 1, h⟩) ∧
           getButtonDown (List.foldl isrTick (swap st) L) c
             = some (st.buttonWentDown ⟨c - 1, h⟩)) ∧
    (c = 0 ∨ 6 ≤ c → getButton st c = none ∧ getButtonDown st c = none) := by
  constructor
  · rintro ⟨h1, h5⟩
    have hc : 0 ≤ (c : Int) - 1 ∧ (c : Int) - 1 < 5 := by omega
    refine ⟨by omega, ?_, ?_, ?_⟩
    · unfold getButton
      rw [dif_pos hc]
      exact congrArg _ (congrArg _ (Fin.eq_of_val_eq
        (show ((c : Int) - 1).toNat = c - 1 by omega)))
    · unfold getButtonDown
      rw [dif_pos hc]
      exact congrArg _ (congrArg _ (Fin.eq_of_val_eq
        (show ((c : Int) - 1).toNat = c - 1 by omega)))
    · intro L
      constructor
      · unfold getButton
        rw [dif_pos hc, foldl_isrTick_buttonStates]
        exact congrArg _ (congrArg _ (Fin.eq_of_val_eq
        (show ((c : Int) - 1).toNat = c - 1 by omega)))
      · unfold getButtonDown
        rw [dif_pos hc, foldl_isrTick_wdil]
        exact congrArg _ (congrArg _ (Fin.eq_of_val_eq
        (show ((c : Int) - 1).toNat = c - 1 by omega)))
  · intro h6
    have hc : ¬(0 ≤ (c : Int) - 1 ∧ (c : Int) - 1 < 5) := by omega
    constructor
    · unfold getButton
      rw [dif_neg hc]
    · unfold getButtonDown
      rw [dif_neg hc]

/-- Witness for C10: channel 3 is read in bounds; channels 0 and 6 are
out of bounds. -/
theorem C10_button_index_witness :
    getButton (initState true false) 3
      = some ((initState true false).buttonStates ⟨2, by omega⟩) ∧
    getButton (initState true false) 0 = none ∧
    getButton (initState true false) 6 = none := by
  refine ⟨?_, ?_, ?_⟩
  · exact ((C10_button_index (initState true false) 3).1 (by decide)).choose_spec.1
  · exact ((C10_button_index (initState true false) 0).2 (Or.inl rfl)).1
  · exact ((C10_button_index (initState true false) 6).2 (Or.inr (by decide))).1

/-! ### C3: edge latching -/

/-- The ISR only ever writes 1 into the went-down latch, never 0. -/
theorem debounceChan_wd_keep (c : ChanState) (v : Bool) (h : c.wd = 1) :
    (debounceChan c v).wd = 1 := by
  unfold debounceChan
  split
  · show (if v = true then 1 else c.wd) = 1
    cases v <;> simp [h]
  · split
    · exact h
    · exact h

/-- A set went-down latch survives one ISR invocation (for any channel and
any sampled level). -/
theorem isrTick_wd_keep (st : LEDState) (p : Bool) (ch : Fin 5)
    (h : st.buttonWentDown ch = 1) : (isrTick st p).buttonWentDown ch = 1 := by
  show (if ch = st.button then (debounceChan (chanOf st st.button) (!p)).wd
        else st.buttonWentDown ch) = 1
  by_cases hb : ch = st.button
  · rw [if_pos hb]
    exact debounceChan_wd_keep (chanOf st st.button) (!p)
      (show st.buttonWentDown st.button = 1 by rw [← hb]; exact h)
  · rw [if_neg hb]
    exact h

/-- A set went-down latch survives any sequence of ISR invocations. -/
theorem foldl_isrTick_wd_keep (L : List Bool) (s : LEDState) (ch : Fin 5)
    (h : s.buttonWentDown ch = 1) :
    (List.foldl isrTick s L).buttonWentDown ch = 1 := by
  induction L generalizing s with
  | nil => exact h
  | cons p L ih => exact ih (isrTick s p) (isrTick_wd_keep s p ch h)

/-- C3: Edge latching — if at an ISR invocation the sampled channel's
normalized raw sample is active (`!pin = true`) while its previous true
state was inactive, the went-down latch for that channel is set at that
invocation and stays set across every later ISR invocation (regardless of
the debounce counter, and even if the raw sample returns to inactive);
the next `swap()` copies it into the application-visible array — so
`getButtonDown` for that channel returns 1 until the following swap,
including across further ISR invocations — and clears the live latch. -/
theorem C3_edge_latching (st : LEDState) (pin : Bool) (ch : Fin 5)
    (hch : st.button = ch) (hsample : (!pin) = true)
    (hprev : st.trueButtonStates ch = false) :
    (isrTick st pin).buttonWentDown ch = 1 ∧
    (∀ L : List Bool,
       (List.foldl isrTick (isrTick st pin) L).buttonWentDown ch = 1) ∧
    (∀ L : List Bool,
       (swap (List.foldl isrTick (isrTick st pin) L)).buttonWentDownInLastLoop
           ch = 1 ∧
       (swap (List.foldl isrTick (isrTick st pin) L)).buttonWentDown ch = 0 ∧
       getButtonDown (swap (List.foldl isrTick (isrTick st pin) L))
           (ch.val + 1) = some 1) ∧
    (∀ L M : List Bool,
       getButtonDown
         (List.foldl isrTick (swap (List.foldl isrTick (isrTick st pin) L)) M)
         (ch.val + 1) = some 1) := by
  have hfirst : (isrTick st pin).buttonWentDown ch = 1 := by
    show (if ch = st.button then (debounceChan (chanOf st st.button) (!pin)).wd
          else st.buttonWentDown ch) = 1
    rw [if_pos hch.symm, hch]
    rw [debounceChan_disagree (chanOf st ch) (!pin)
      (show (chanOf st ch).trueState ≠ !pin by
        show st.trueButtonStates ch ≠ !pin
        rw [hprev, hsample]
        decide)]
    show (if (!pin) = true then 1 else (chanOf st ch).wd) = 1
    rw [if_pos hsample]
  have hkeep : ∀ L : List Bool,
      (List.foldl isrTick (isrTick st pin) L).buttonWentDown ch = 1 :=
    fun L => foldl_isrTick_wd_keep L (isrTick st pin) ch hfirst
  have hc : 0 ≤ ((ch.val + 1 : Nat) : Int) - 1 ∧
      ((ch.val + 1 : Nat) : Int) - 1 < 5 := by
    have := ch.isLt
    omega
  have hdown : ∀ s : LEDState, s.buttonWentDownInLastLoop ch = 1 →
      getButtonDown s (ch.val + 1) = some 1 := by
    intro s hs
    unfold getButtonDown
    rw [dif_pos hc]
    refine congrArg some ?_
    have hall : ∀ j : Fin 5, j = ch → s.buttonWentDownInLastLoop j = 1 := by
      intro j hj
      rw [hj]
      exact hs
    exact hall _ (Fin.eq_of_val_eq
      (show (((ch.val + 1 : Nat) : Int) - 1).toNat = ch.val by omega))
  refine ⟨hfirst, hkeep, ?_, ?_⟩
  · intro L
    have hL := hkeep L
    exact ⟨hL, rfl, hdown _ hL⟩
  · intro L M
    have hL := hkeep L
    have hw : (List.foldl isrTick
        (swap (List.foldl isrTick (isrTick st pin) L)) M).buttonWentDownInLastLoop
          ch = 1 := by
      rw [foldl_isrTick_wdil]
      exact hL
    exact hdown _ hw

/-- Witness for C3: on the initial state (channel 0 up next, previous true
state inactive), an active sample latches the flag; it survives three
further invocations with inactive samples; and the next swap makes
`getButtonDown(1)` return 1. -/
theorem C3_edge_latching_witness :
    (isrTick (initState true false) false).buttonWentDown 0 = 1 ∧
    (List.foldl isrTick (isrTick (initState true false) false)
        [true, true, true]).buttonWentDown 0 = 1 ∧
    getButtonDown (swap (isrTick (initState true false) false)) 1 = some 1 := by
  have h := C3_edge_latching (initState true false) false 0 rfl rfl rfl
  exact ⟨h.1, h.2.1 [true, true, true], (h.2.2.1 []).2.2⟩

/-! ### C1: double-buffer isolation -/

/-- `set` never changes the buffer pointers. -/
theorem set_pointers (st : LEDState) (x y : Int) (col : Nat) :
    (AberLED.set st x y col).backBuffer = st.backBuffer ∧
    (AberLED.set st x y col).frontBuffer = st.frontBuffer := by
  unfold AberLED.set
  split
  · cases hb : st.backBuffer <;> simp [writeRow, hb]
  · exact ⟨rfl, rfl⟩

/-- `clear` never changes the buffer pointers. -/
theorem clear_pointers (st : LEDState) :
    (clear st).backBuffer = st.backBuffer ∧
    (clear st).frontBuffer = st.frontBuffer := by
  unfold clear
  cases hb : st.backBuffer <;> simp

/-- Application frame-store operations never change the buffer pointers. -/
theorem applyOp_pointers (st : LEDState) (op : AppOp) :
    (applyOp st op).backBuffer = st.backBuffer ∧
    (applyOp st op).frontBuffer = st.frontBuffer := by
  cases op with
  | px x y col => exact set_pointers st x y col
  | wipe => exact clear_pointers st

/-- Writing a row of one buffer leaves the other buffer's rows alone. -/
theorem writeRow_bufRows_other (st : LEDState) (id id2 : BufId) (r : Fin 8)
    (v : Nat) (h : id ≠ id2) :
    bufRows (writeRow st id r v) id2 = bufRows st id2 := by
  cases id <;> cases id2 <;> simp_all [writeRow, bufRows]

/-- When the pointers are distinct, `set` leaves the front buffer's rows
alone. -/
theorem set_front_rows (st : LEDState) (x y : Int) (col : Nat)
    (hd : st.backBuffer ≠ st.frontBuffer) :
    bufRows (AberLED.set st x y col) st.frontBuffer
      = bufRows st st.frontBuffer := by
  unfold AberLED.set
  split
  · exact writeRow_bufRows_other st st.backBuffer st.frontBuffer _ _ hd
  · rfl

/-- When the pointers are distinct, `clear` leaves the front buffer's rows
alone. -/
theorem clear_front_rows (st : LEDState)
    (hd : st.backBuffer ≠ st.frontBuffer) :
    bufRows (clear st) st.frontBuffer = bufRows st st.frontBuffer := by
  unfold clear
  cases hA : st.backBuffer <;> cases hB : st.frontBuffer <;>
    simp_all [bufRows]

/-- When the pointers are distinct, application operations leave the front
buffer's rows alone. -/
theorem applyOp_front_rows (st : LEDState) (op : AppOp)
    (hd : st.backBuffer ≠ st.frontBuffer) :
    bufRows (applyOp st op) st.frontBuffer = bufRows st st.frontBuffer := by
  cases op with
  | px x y col => exact set_front_rows st x y col hd
  | wipe => exact clear_front_rows st hd

/-- When the pointers are distinct, any sequence of application operations
preserves both pointers and the front buffer's rows. -/
theorem applyOps_isolation (ops : List AppOp) (st : LEDState)
    (hd : st.backBuffer ≠ st.frontBuffer) :
    (applyOps st ops).backBuffer = st.backBuffer ∧
    (applyOps st ops).frontBuffer = st.frontBuffer ∧
    bufRows (applyOps st ops) st.frontBuffer = bufRows st st.frontBuffer := by
  induction ops generalizing st with
  | nil => exact ⟨rfl, rfl, rfl⟩
  | cons op ops ih =>
      have hp := applyOp_pointers st op
      have hd' : (applyOp st op).backBuffer ≠ (applyOp st op).frontBuffer := by
        rw [hp.1, hp.2]
        exact hd
      obtain ⟨g1, g2, g3⟩ := ih (applyOp st op) hd'
      have hstep : applyOps st (op :: ops) = applyOps (applyOp st op) ops := rfl
      refine ⟨?_, ?_, ?_⟩
      · rw [hstep, g1, hp.1]
      · rw [hstep, g2, hp.2]
      · rw [hstep]
        have heq : st.frontBuffer = (applyOp st op).frontBuffer := hp.2.symm
        rw [heq, g3, ← heq, applyOp_front_rows st op hd]

/-- `clearText` changes neither buffer pointer. -/
theorem clearText_pointers (st : LEDState) :
    (clearText st).backBuffer = st.backBuffer ∧
    (clearText st).frontBuffer = st.frontBuffer := by
  unfold clearText
  split <;> exact ⟨rfl, rfl⟩

/-- `addToText` changes neither buffer pointer. -/
theorem addToText_pointers (st : LEDState) (s : List Char) :
    (addToText st s).backBuffer = st.backBuffer ∧
    (addToText st s).frontBuffer = st.frontBuffer := by
  unfold addToText
  split
  · split <;> exact ⟨rfl, rfl⟩
  · exact ⟨rfl, rfl⟩

/-- Each single step preserves distinctness of the two buffer pointers. -/
theorem step_distinct {a b : LEDState} (hs : Step a b)
    (h : a.backBuffer ≠ a.frontBuffer) :
    b.backBuffer ≠ b.frontBuffer := by
  cases hs with
  | app op =>
      have hp := applyOp_pointers a op
      rw [hp.1, hp.2]
      exact h
  | doSwap =>
      show a.frontBuffer ≠ a.backBuffer
      exact fun hh => h hh.symm
  | tick p => exact h
  | txtClear =>
      have hp := clearText_pointers a
      rw [hp.1, hp.2]
      exact h
  | txtAdd s =>
      have hp := addToText_pointers a s
      rw [hp.1, hp.2]
      exact h

/-- Every reachable state keeps the two buffer pointers distinct. -/
theorem reachable_distinct (tft noInt : Bool) (st : LEDState)
    (h : Reachable tft noInt st) :
    st.backBuffer ≠ st.frontBuffer := by
  induction h with
  | refl => simp [initState]
  | tail hab hbc ih => exact step_distinct hbc ih

/-- C1: Double-buffer isolation — at every reachable state the writable
(back) and visible (front) pointers refer to two distinct buffers; any
sequence of application-side `set`/`clear` calls leaves the visible
buffer's 8 row words bitwise unchanged (and does not move the pointers);
`swap()` exchanges exactly the two roles, and ISR invocations never move
the pointers, so only `swap()` exchanges them. -/
theorem C1_buffer_isolation (tft noInt : Bool) (st : LEDState)
    (h : Reachable tft noInt st) :
    st.backBuffer ≠ st.frontBuffer ∧
    (∀ ops : List AppOp,
       (applyOps st ops).frontBuffer = st.frontBuffer ∧
       ∀ r : Fin 8,
         bufRows (applyOps st ops) st.frontBuffer r
           = bufRows st st.frontBuffer r) ∧
    (swap st).frontBuffer = st.backBuffer ∧
    (swap st).backBuffer = st.frontBuffer ∧
    (∀ p : Bool, (isrTick st p).backBuffer = st.backBuffer ∧
                 (isrTick st p).frontBuffer = st.frontBuffer) := by
  have hd := reachable_distinct tft noInt st h
  refine ⟨hd, ?_, rfl, rfl, fun p => ⟨rfl, rfl⟩⟩
  intro ops
  obtain ⟨_, g2, g3⟩ := applyOps_isolation ops st hd
  exact ⟨g2, fun r => by rw [g3]⟩

/-- Witness for C1: the initial state is reachable, its pointers are
distinct, and a concrete `set`/`clear` sequence leaves the visible
buffer's rows unchanged. -/
theorem C1_buffer_isolation_witness :
    (initState true false).backBuffer ≠ (initState true false).frontBuffer ∧
    (applyOps (initState true false)
        [AppOp.wipe, AppOp.px 3 2 2]).frontBuffer
      = (initState true false).frontBuffer ∧
    bufRows (applyOps (initState true false) [AppOp.wipe, AppOp.px 3 2 2])
        (initState true false).frontBuffer 2
      = bufRows (initState true false) (initState true false).frontBuffer 2 := by
  have h := C1_buffer_isolation true false (initState true false)
    Relation.ReflTransGen.refl
  exact ⟨h.1, (h.2.1 [AppOp.wipe, AppOp.px 3 2 2]).1,
    (h.2.1 [AppOp.wipe, AppOp.px 3 2 2]).2 2⟩

/-! ### C2: exchange synchronization -/

/-- C2: Exchange synchronization — model `swap()` as its critical section
followed by some sequence `L` of ISR invocations during the busy-wait;
`swap` may only return when `canReturn` holds (the wait-loop exit
condition).  If the periodic interrupt is running, any return point has
seen at least 2 ISR invocations since the pointer swap, every one of them
with the newly-visible buffer (the old back buffer) as the front buffer,
and the refresh cursor has advanced once per invocation (mod 8); if the
interrupt is not running, `canReturn` holds already at the critical
section's end with zero ISR invocations, so `swap()` does not block. -/
theorem C2_exchange_sync (st : LEDState) (L : List Bool)
    (hret : canReturn st (List.foldl isrTick (swap st) L)) :
    (st.interruptRunning = true →
       2 ≤ L.length ∧
       (∀ n : Nat,
          (List.foldl isrTick (swap st) (List.take n L)).frontBuffer
            = st.backBuffer) ∧
       (List.foldl isrTick (swap st) L).refrow.val
         = ((swap st).refrow.val + L.length) % 8) ∧
    (st.interruptRunning = false → canReturn st (swap st)) := by
  constructor
  · intro hrun
    have ht := foldl_isrTick_interruptTicks L (swap st)
    have hlen : 2 ≤ (L.length : Int) := by
      have h2 := hret hrun
      rw [ht] at h2
      have h0 : (swap st).interruptTicks = 0 := rfl
      rw [h0] at h2
      simpa using h2
    refine ⟨by exact_mod_cast hlen, ?_, foldl_isrTick_refrow L (swap st)⟩
    intro n
    rw [foldl_isrTick_front]
    rfl
  · intro hnot
    intro hrun
    rw [hnot] at hrun
    cases hrun

/-- Witness for C2: with the interrupt running and two ISR invocations
during the wait, the exit condition holds, at least 2 invocations have
occurred, and the refresh cursor has advanced 2 rows. -/
theorem C2_exchange_sync_witness :
    2 ≤ ([true, false] : List Bool).length ∧
    (List.foldl isrTick (swap (initState true false)) [true, false]).refrow.val
      = ((swap (initState true false)).refrow.val + 2) % 8 := by
  have h := (C2_exchange_sync (initState true false) [true, false]
    (by intro hh; decide)).1 rfl
  exact ⟨h.1, h.2.2⟩

/-! ### Bit-level lemmas about the row-word update -/

/-- The pixel mask `3 << 2x` fits in 16 bits for every in-range `x`. -/
theorem shiftLeft3_lt (k : Nat) (hk : k ≤ 14) : 3 <<< k < 65536 := by
  rw [Nat.shiftLeft_eq]
  have h2 : (2 : Nat) ^ k ≤ 2 ^ 14 := Nat.pow_le_pow_right (by norm_num) hk
  omega

/-- Bit `i` of the updated row word, for a 2-bit colour: the two field
bits come from the colour, every other bit below 16 comes from the old
row, and bits at 16 and above are zero. -/
theorem setWord_testBit (row col k i : Nat) (hk : k ≤ 14) (hcol : col < 4) :
    (setWord row k col).testBit i =
      if i = k then col.testBit 0
      else if i = k + 1 then col.testBit 1
      else (row.testBit i && decide (i < 16)) := by
  unfold setWord
  rw [Nat.mod_eq_of_lt (shiftLeft3_lt k hk)]
  rw [show (65535 : Nat) = 2 ^ 16 - 1 by norm_num,
      show (65536 : Nat) = 2 ^ 16 by norm_num,
      show (3 : Nat) = 2 ^ 2 - 1 by norm_num]
  simp only [Nat.testBit_mod_two_pow, Nat.testBit_or, Nat.testBit_and,
    Nat.testBit_xor, Nat.testBit_shiftLeft, Nat.testBit_two_pow_sub_one]
  by_cases h1 : i = k
  · subst h1
    rw [if_pos rfl]
    simp [show i < 16 by omega, Nat.sub_self]
  · rw [if_neg h1]
    by_cases h2 : i = k + 1
    · subst h2
      rw [if_pos rfl]
      simp [show k + 1 < 16 by omega, show k ≤ k + 1 by omega,
        show k + 1 - k = 1 by omega]
    · rw [if_neg h2]
      by_cases h3 : k ≤ i
      · have hcolbit : col.testBit (i - k) = false :=
          Nat.testBit_lt_two_pow (by
            have hp : (2 : Nat) ^ 2 ≤ 2 ^ (i - k) :=
              Nat.pow_le_pow_right (by norm_num) (by omega)
            omega)
        have hd : decide (i - k < 2) = false := decide_eq_false (by omega)
        by_cases h4 : i < 16
        · simp [h3, h4, hcolbit, hd]
        · simp [h3, h4, hcolbit, hd]
      · have h5 : i < 16 := by omega
        simp [h3, h5]

/-- Reading back the 2-bit field after the update yields the written
colour. -/
theorem pixGet_setWord (row col x : Nat) (hx : x < 8) (hcol : col < 4) :
    pixGet (setWord row (x * 2) col) x = col := by
  unfold pixGet
  apply Nat.eq_of_testBit_eq
  intro j
  rw [Nat.testBit_and, Nat.testBit_shiftRight]
  rw [setWord_testBit row col (x * 2) (2 * x + j) (by omega) hcol]
  rcases j with _ | _ | j
  · rw [if_pos (by omega : 2 * x + 0 = x * 2)]
    simp
  · rw [if_neg (by omega : ¬ 2 * x + 1 = x * 2),
        if_pos (by omega : 2 * x + 1 = x * 2 + 1)]
    simp [show Nat.testBit 3 1 = true by decide]
  · rw [if_neg (by omega : ¬ 2 * x + (j + 1 + 1) = x * 2),
        if_neg (by omega : ¬ 2 * x + (j + 1 + 1) = x * 2 + 1)]
    have hpow : (2 : Nat) ^ 2 ≤ 2 ^ (j + 1 + 1) :=
      Nat.pow_le_pow_right (by norm_num) (by omega)
    have h3 : (3 : Nat).testBit (j + 1 + 1) = false :=
      Nat.testBit_lt_two_pow (by omega)
    have h4 : col.testBit (j + 1 + 1) = false :=
      Nat.testBit_lt_two_pow (by omega)
    simp [h3, h4]

/-- Every bit outside the written 2-bit field is unchanged by the
update (for a 16-bit row word and a 2-bit colour). -/
theorem setWord_testBit_outside (row col x i : Nat) (hx : x < 8)
    (hcol : col < 4) (hrow : row < 65536) (h1 : i ≠ 2 * x)
    (h2 : i ≠ 2 * x + 1) :
    (setWord row (x * 2) col).testBit i = row.testBit i := by
  rw [setWord_testBit row col (x * 2) i (by omega) hcol,
      if_neg (show ¬ i = x * 2 by omega),
      if_neg (show ¬ i = x * 2 + 1 by omega)]
  by_cases h3 : i < 16
  · simp [h3]
  · have hpow : (2 : Nat) ^ 16 ≤ 2 ^ i := Nat.pow_le_pow_right (by norm_num) (by omega)
    have h4 : row.testBit i = false := Nat.testBit_lt_two_pow (by omega)
    simp [h3, h4]

/-- `getBuffer` after a row write into the back buffer. -/
theorem getBuffer_writeRow (st : LEDState) (r : Fin 8) (v : Nat) :
    getBuffer (writeRow st st.backBuffer r v)
      = fun j => if j = r then v else getBuffer st j := by
  funext j
  cases hb : st.backBuffer <;>
    simp [writeRow, getBuffer, bufRows, hb]

/-- The writable buffer after an in-range `set` call: row `y` gets the
word update, every other row is untouched. -/
theorem getBuffer_set (st : LEDState) (x y : Nat) (hx : x < 8) (hy : y < 8)
    (col : Nat) :
    getBuffer (AberLED.set st (x : Int) (y : Int) col)
      = fun r : Fin 8 =>
          if r = (⟨y, hy⟩ : Fin 8) then
            setWord (getBuffer st ⟨y, hy⟩) (x * 2) (col % 256)
          else getBuffer st r := by
  unfold AberLED.set
  rw [dif_pos (by omega)]
  have hxx : ((x : Int)).toNat = x := by omega
  have hyy : ((y : Int)).toNat = y := by omega
  rw [getBuffer_writeRow]
  funext r
  simp only [hxx, hyy]

/-! ### C5: round-trip pixel encoding -/

/-- C5: Round-trip pixel encoding — for every `x, y` in `[0,8)` and every
colour in `{0,1,2,3}`, after `set(x,y,col)` the 2-bit field at bit pair
`x` of row word `y` of the writable buffer (read back via `getBuffer()`)
equals the colour, every other bit of that row word is unchanged, and
every other row is unchanged. -/
theorem C5_roundtrip (st : LEDState) (x y col : Nat) (hx : x < 8) (hy : y < 8)
    (hcol : col < 4) (hw : ∀ r : Fin 8, getBuffer st r < 65536) :
    pixGet (getBuffer (AberLED.set st (x : Int) (y : Int) col) ⟨y, hy⟩) x
        = col ∧
    (∀ i : Nat, i ≠ 2 * x → i ≠ 2 * x + 1 →
       (getBuffer (AberLED.set st (x : Int) (y : Int) col) ⟨y, hy⟩).testBit i
         = (getBuffer st ⟨y, hy⟩).testBit i) ∧
    (∀ r : Fin 8, r.val ≠ y →
       getBuffer (AberLED.set st (x : Int) (y : Int) col) r
         = getBuffer st r) := by
  have hgb := getBuffer_set st x y hx hy col
  have hcol2 : col % 256 = col := Nat.mod_eq_of_lt (by omega)
  refine ⟨?_, ?_, ?_⟩
  · rw [hgb]
    simp only [if_pos rfl]
    rw [hcol2]
    exact pixGet_setWord _ col x hx hcol
  · intro i h1 h2
    rw [hgb]
    simp only [if_pos rfl]
    rw [hcol2]
    exact setWord_testBit_outside _ col x i hx hcol (hw _) h1 h2
  · intro r hr
    rw [hgb]
    simp only []
    rw [if_neg (fun hh => hr (congrArg Fin.val hh))]

/-- Witness for C5: writing colour 2 at (3,2) on the initial state reads
back as 2, and row 0 is untouched. -/
theorem C5_roundtrip_witness :
    pixGet (getBuffer (AberLED.set (initState true false) ((3 : Nat) : Int)
        ((2 : Nat) : Int) 2) ⟨2, by norm_num⟩) 3 = 2 ∧
    getBuffer (AberLED.set (initState true false) ((3 : Nat) : Int)
        ((2 : Nat) : Int) 2) ⟨0, by norm_num⟩
      = getBuffer (initState true false) ⟨0, by norm_num⟩ := by
  have h := C5_roundtrip (initState true false) 3 2 2 (by norm_num)
    (by norm_num) (by norm_num) (by decide)
  exact ⟨h.1, h.2.2 ⟨0, by norm_num⟩ (by norm_num)⟩

/-! ### C9: colour-argument overflow -/

/-- C9 fails as stated: at x = 6 (in range, < 7) with colour 16 ≥ 4, the
colour's only set bit shifts to position 16, past the 16-bit row word, and
is discarded; on the zeroed initial buffer the whole row word stays 0, so
no bit belonging to pixel 7 (or beyond) is set. -/
theorem C9_counterexample :
    (6 : Int) < 8 ∧ (4 : Nat) ≤ 16 ∧
    getBuffer (AberLED.set (initState true false) 6 0 16) (0 : Fin 8) = 0 ∧
    pixGet (getBuffer (AberLED.set (initState true false) 6 0 16) (0 : Fin 8))
      7 = 0 := by
  decide

/-- A surviving colour bit forces the corresponding bit of the updated
row word to 1. -/
theorem setWord_testBit_of_col (row col k i : Nat) (hi : i < 16) (hk : k ≤ i)
    (hc : col.testBit (i - k) = true) :
    (setWord row k col).testBit i = true := by
  unfold setWord
  rw [show (65536 : Nat) = 2 ^ 16 by norm_num]
  rw [Nat.testBit_mod_two_pow, Nat.testBit_or, Nat.testBit_shiftLeft]
  simp [hi, hk, hc]

/-- At x = 7 (field at bits 14..15) all excess colour bits shift past the
16-bit word, so the update only sees the colour modulo 4. -/
theorem setWord_x7_mod4 (row a : Nat) :
    setWord row 14 a = setWord row 14 (a % 4) := by
  apply Nat.eq_of_testBit_eq
  intro i
  unfold setWord
  rw [show (65536 : Nat) = 2 ^ 16 by norm_num]
  simp only [Nat.testBit_mod_two_pow, Nat.testBit_or, Nat.testBit_shiftLeft]
  by_cases hi : i < 16
  · by_cases hk : 14 ≤ i
    · have hik : i - 14 < 2 := by omega
      have hb : a.testBit (i - 14) = (a % 4).testBit (i - 14) := by
        rw [show (4 : Nat) = 2 ^ 2 by norm_num, Nat.testBit_mod_two_pow]
        simp [hik]
      rw [hb]
    · simp [hk]
  · simp [hi]

/-- C9 (amended): `set()` does not mask the colour argument to 2 bits —
for every in-range x < 7, y, and colour whose excess bits survive the
16-bit row-word truncation (4 ≤ (col mod 256) mod 2^(16−2x)),
`set(x,y,col)` also sets bits belonging to pixel x+1 or beyond of the
same row word, so pixel isolation and the round trip hold only under
col ≤ 3.  Excess bits shifted to positions ≥ 16 are discarded — always
at x = 7 (where `set` behaves as if the colour were masked to 2 bits),
but also possible at x = 5 and x = 6 (see the counterexample). -/
theorem C9_colour_overflow (st : LEDState) (x y col : Nat) (hx : x < 7)
    (hy : y < 8) (hcol : 4 ≤ (col % 256) % 2 ^ (16 - 2 * x)) :
    (∃ i : Nat, 2 * x + 2 ≤ i ∧
       (getBuffer (AberLED.set st (x : Int) (y : Int) col) ⟨y, hy⟩).testBit i
         = true) ∧
    (∀ st2 : LEDState, ∀ y2 col2 : Nat, ∀ hy2 : y2 < 8,
       getBuffer (AberLED.set st2 ((7 : Nat) : Int) (y2 : Int) col2) ⟨y2, hy2⟩
         = getBuffer (AberLED.set st2 ((7 : Nat) : Int) (y2 : Int) (col2 % 4))
             ⟨y2, hy2⟩) := by
  constructor
  · have hm : (col % 256) % 2 ^ (16 - 2 * x) ≠ 0 := by omega
    obtain ⟨p, hp1, hp2⟩ := Nat.exists_most_significant_bit hm
    have hp3 : 2 ≤ p := by
      by_contra hlt
      have hsmall : (col % 256) % 2 ^ (16 - 2 * x) < 2 ^ 2 :=
        Nat.lt_pow_two_of_testBit _ (fun j hj => hp2 j (by omega))
      omega
    have hp4 : p < 16 - 2 * x := by
      by_contra hge
      have h1 := Nat.testBit_implies_ge hp1
      have h2 : (col % 256) % 2 ^ (16 - 2 * x) < 2 ^ (16 - 2 * x) :=
        Nat.mod_lt _ (Nat.two_pow_pos _)
      have h3 : (2 : Nat) ^ (16 - 2 * x) ≤ 2 ^ p :=
        Nat.pow_le_pow_right (by norm_num) (by omega)
      omega
    have hbit : (col % 256).testBit p = true := by
      rw [Nat.testBit_mod_two_pow] at hp1
      exact (Bool.and_eq_true_iff.mp hp1).2
    refine ⟨x * 2 + p, by omega, ?_⟩
    have hgb := getBuffer_set st x y (by omega) hy col
    rw [hgb]
    simp only [if_pos rfl]
    exact setWord_testBit_of_col _ _ (x * 2) (x * 2 + p) (by omega) (by omega)
      (by rw [Nat.add_sub_cancel_left]; exact hbit)
  · intro st2 y2 col2 hy2
    rw [getBuffer_set st2 7 y2 (by omega) hy2 col2,
        getBuffer_set st2 7 y2 (by omega) hy2 (col2 % 4)]
    simp only [if_pos rfl]
    rw [show (7 : Nat) * 2 = 14 by norm_num]
    rw [setWord_x7_mod4 _ (col2 % 256),
        Nat.mod_mod_of_dvd col2 (by norm_num : (4 : Nat) ∣ 256),
        Nat.mod_eq_of_lt (show col2 % 4 < 256 by omega)]

/-- Witness for C9 (amended): writing colour 4 at (0,0) sets bit 2 — a bit
of pixel 1 — and at x = 7 colour 16 behaves exactly like colour 0. -/
theorem C9_colour_overflow_witness :
    (∃ i : Nat, 2 * 0 + 2 ≤ i ∧
       (getBuffer (AberLED.set (initState true false) ((0 : Nat) : Int)
           ((0 : Nat) : Int) 4) ⟨0, by norm_num⟩).testBit i = true) ∧
    getBuffer (AberLED.set (initState true false) ((7 : Nat) : Int)
        ((0 : Nat) : Int) 16) ⟨0, by norm_num⟩
      = getBuffer (AberLED.set (initState true false) ((7 : Nat) : Int)
          ((0 : Nat) : Int) (16 % 4)) ⟨0, by norm_num⟩ := by
  have h := C9_colour_overflow (initState true false) 0 0 4 (by norm_num)
    (by norm_num) (by decide)
  exact ⟨h.1, h.2 (initState true false) 0 16 (by norm_num)⟩
